import Mathlib

set_option maxRecDepth 100000

/-!
Verification of `jobs/buildhub/to_kinto.py` (buildhub's concurrent publish
engine). We shallowly embed the JSON data values the script manipulates,
its content-hash function (`hash_record` / `hash_record_mutate`, which MD5
a `json.dumps(..., sort_keys=True)` serialization), the batch error
aggregation of `publish_records`, the producer `produce`, and the
batch-filling loop of `consume` (including `record_unchanged`).
-/

namespace ToKinto

/-- JSON values as decoded by Python's `json.load` / manipulated by the
script: `None`, booleans, integers, strings, lists and dicts (dicts keep
insertion order and have unique keys; we represent them as association
lists). Floats do not occur in the records this program handles. -/
inductive Json where
  | null : Json
  | bool (b : Bool) : Json
  | int (n : Int) : Json
  | str (s : String) : Json
  | arr (xs : List Json) : Json
  | obj (kvs : List (String × Json)) : Json

/-- A Python dict with string keys holding JSON values (insertion order,
unique keys), e.g. a record, a batch sub-result, or the `existing` cache. -/
abbrev PyDict := List (String × Json)

/-- Python's `value == someString` on a JSON value: true exactly when the
value is that string (comparisons across types are `False` in Python, never
an error). Used for `existing.get(record['id']) == hash_record(record)`. -/
def pyEqStr : Json → String → Bool
  | Json.str s, h => s == h
  | _, _ => false

/-- Python's `value == someInt` on a JSON value: integers compare
numerically, and Python's `True == 1` / `False == 0` quirk is reproduced;
any other type compares unequal. Used for `error_status == 412` etc. -/
def pyEqInt : Json → Int → Bool
  | Json.int n, m => n == m
  | Json.bool b, m => (if b then (1 : Int) else 0) == m
  | _, _ => false

/-! ## MD5 (as used by `hashlib.md5(...).hexdigest()`)

A direct implementation of MD5 over byte lists, with 32-bit words
represented as `Nat` reduced modulo `2^32`. -/

/-- The 64 MD5 round constants `K[i] = floor(abs(sin(i+1)) * 2^32)`. -/
def mdK : List Nat :=
  [3614090360, 3905402710, 606105819, 3250441966, 4118548399, 1200080426,
   2821735955, 4249261313, 1770035416, 2336552879, 4294925233, 2304563134,
   1804603682, 4254626195, 2792965006, 1236535329, 4129170786, 3225465664,
   643717713, 3921069994, 3593408605, 38016083, 3634488961, 3889429448,
   568446438, 3275163606, 4107603335, 1163531501, 2850285829, 4243563512,
   1735328473, 2368359562, 4294588738, 2272392833, 1839030562, 4259657740,
   2763975236, 1272893353, 4139469664, 3200236656, 681279174, 3936430074,
   3572445317, 76029189, 3654602809, 3873151461, 530742520, 3299628645,
   4096336452, 1126891415, 2878612391, 4237533241, 1700485571, 2399980690,
   4293915773, 2240044497, 1873313359, 4264355552, 2734768916, 1309151649,
   4149444226, 3174756917, 718787259, 3951481745]

/-- The 64 MD5 per-round left-rotation amounts. -/
def mdS : List Nat :=
  [7, 12, 17, 22, 7, 12, 17, 22, 7, 12, 17, 22, 7, 12, 17, 22,
   5, 9, 14, 20, 5, 9, 14, 20, 5, 9, 14, 20, 5, 9, 14, 20,
   4, 11, 16, 23, 4, 11, 16, 23, 4, 11, 16, 23, 4, 11, 16, 23,
   6, 10, 15, 21, 6, 10, 15, 21, 6, 10, 15, 21, 6, 10, 15, 21]

/-- Addition modulo `2^32`. -/
def add32 (a b : Nat) : Nat := (a + b) % 4294967296

/-- Bitwise complement on 32-bit words. -/
def not32 (x : Nat) : Nat := 4294967295 ^^^ x

/-- Left rotation of a 32-bit word by `s` bits. -/
def rotl32 (x s : Nat) : Nat := ((x <<< s) ||| (x >>> (32 - s))) % 4294967296

/-- MD5 round function F (rounds 0-15). -/
def mdF (b c d : Nat) : Nat := (b &&& c) ||| (not32 b &&& d)

/-- MD5 round function G (rounds 16-31). -/
def mdG (b c d : Nat) : Nat := (d &&& b) ||| (not32 d &&& c)

/-- MD5 round function H (rounds 32-47). -/
def mdH (b c d : Nat) : Nat := b ^^^ c ^^^ d

/-- MD5 round function I (rounds 48-63). -/
def mdI (b c d : Nat) : Nat := c ^^^ (b ||| not32 d)

/-- Read `k` bytes, little-endian, from a number (truncating). -/
def leBytes : Nat → Nat → List Nat
  | 0, _ => []
  | k + 1, n => n % 256 :: leBytes k (n / 256)

/-- Combine a little-endian byte list into a number. -/
def leNum (bs : List Nat) : Nat := bs.foldr (fun b acc => b + 256 * acc) 0

/-- MD5 padding: append `0x80`, zeros to 56 mod 64, and the 8-byte
little-endian bit length. -/
def md5pad (msg : List Nat) : List Nat :=
  msg ++ [128] ++ List.replicate ((119 - msg.length % 64) % 64) 0
      ++ leBytes 8 (8 * msg.length)

/-- Split a byte list into 64-byte chunks (structural recursion on a fuel
bounded by the length, so that the definition reduces in the kernel). -/
def chunks64Go : Nat → List Nat → List (List Nat)
  | _, [] => []
  | 0, _ :: _ => []
  | fuel + 1, b :: rest => ((b :: rest).take 64) :: chunks64Go fuel ((b :: rest).drop 64)

/-- Split a byte list into 64-byte chunks. -/
def chunks64 (l : List Nat) : List (List Nat) := chunks64Go l.length l

/-- One MD5 round `i` over message words `m`, transforming state
`(a, b, c, d)`. -/
def md5round (m : List Nat) (st : Nat × Nat × Nat × Nat) (i : Nat) :
    Nat × Nat × Nat × Nat :=
  let (a, b, c, d) := st
  let f :=
    if i < 16 then mdF b c d
    else if i < 32 then mdG b c d
    else if i < 48 then mdH b c d
    else mdI b c d
  let g :=
    if i < 16 then i
    else if i < 32 then (5 * i + 1) % 16
    else if i < 48 then (3 * i + 5) % 16
    else (7 * i) % 16
  let tmp := add32 (add32 (add32 f a) (mdK.getD i 0)) (m.getD g 0)
  (d, add32 b (rotl32 tmp (mdS.getD i 0)), b, c)

/-- Process one 64-byte chunk, updating the running MD5 state. -/
def md5chunk (st : Nat × Nat × Nat × Nat) (chunk : List Nat) :
    Nat × Nat × Nat × Nat :=
  let m := (List.range 16).map (fun j => leNum ((chunk.drop (4 * j)).take 4))
  let (a, b, c, d) := (List.range 64).foldl (md5round m) st
  let (a0, b0, c0, d0) := st
  (add32 a0 a, add32 b0 b, add32 c0 c, add32 d0 d)

/-- MD5 digest of a byte list, as 16 bytes. -/
def md5bytes (msg : List Nat) : List Nat :=
  let (a, b, c, d) :=
    (chunks64 (md5pad msg)).foldl md5chunk
      (1732584193, 4023233417, 2562383102, 271733878)
  leBytes 4 a ++ leBytes 4 b ++ leBytes 4 c ++ leBytes 4 d

/-- Lower-case hex digit. -/
def hexDigit (n : Nat) : Char :=
  if n < 10 then Char.ofNat (48 + n) else Char.ofNat (87 + n)

/-- Two-digit lower-case hex of a byte. -/
def byteHex (b : Nat) : String := String.mk [hexDigit (b / 16), hexDigit (b % 16)]

/-- Hex digest `hashlib.md5(bytes).hexdigest()`: the 32-character
lower-case hex MD5 digest. -/
def md5hex (msg : List Nat) : String := String.join ((md5bytes msg).map byteHex)

/-! ## `json.dumps(..., sort_keys=True)`

Python's default serialization: separators `", "` and `": "`, keys sorted
by code point, `ensure_ascii=True` (every character outside printable
ASCII is `\uXXXX`-escaped, so the output encodes to UTF-8 byte-per-char). -/

/-- Four-digit lower-case hex, for `\uXXXX` escapes. -/
def hex4 (n : Nat) : String :=
  String.mk [hexDigit (n / 4096 % 16), hexDigit (n / 256 % 16),
             hexDigit (n / 16 % 16), hexDigit (n % 16)]

/-- The `\uXXXX` escape of a code point (surrogate pair above `0xFFFF`),
as produced by `ensure_ascii=True`. -/
def uEscape (c : Char) : String :=
  if c.toNat < 65536 then "\\u" ++ hex4 c.toNat
  else
    let v := c.toNat - 65536
    "\\u" ++ hex4 (55296 + v / 1024) ++ "\\u" ++ hex4 (56320 + v % 1024)

/-- Escape one character of a JSON string the way CPython's encoder does:
printable ASCII other than `"` and `\` is literal, the usual short escapes
apply, and everything else becomes `\uXXXX`. -/
def jsonEscapeChar (c : Char) : String :=
  if c = '"' then "\\\""
  else if c = '\\' then "\\\\"
  else if c = '\n' then "\\n"
  else if c = '\t' then "\\t"
  else if c = '\r' then "\\r"
  else if c.toNat = 8 then "\\b"
  else if c.toNat = 12 then "\\f"
  else if 32 ≤ c.toNat ∧ c.toNat ≤ 126 then String.mk [c]
  else uEscape c

/-- A JSON string literal with quotes and escapes. -/
def dumpString (s : String) : String :=
  "\"" ++ String.join (s.data.map jsonEscapeChar) ++ "\""

/-- Python's `<` on strings: lexicographic comparison by code point. -/
def charsLt : List Char → List Char → Bool
  | [], [] => false
  | [], _ :: _ => true
  | _ :: _, [] => false
  | c :: cs, d :: ds =>
    if c.toNat < d.toNat then true
    else if d.toNat < c.toNat then false
    else charsLt cs ds

/-- Python's `<` on strings, on the underlying character lists. -/
def pyStrLt (a b : String) : Bool := charsLt a.data b.data

/-- Insert a serialized key/value pair into a key-sorted list, before any
pair with an equal key (matching Python's stable sort). -/
def insertPair (p : String × String) :
    List (String × String) → List (String × String)
  | [] => [p]
  | q :: rest => if pyStrLt q.1 p.1 then q :: insertPair p rest else p :: q :: rest

/-- Sort serialized members by key (Python `sorted`: code-point
lexicographic on the key strings, stable). -/
def sortPairs : List (String × String) → List (String × String)
  | [] => []
  | p :: rest => insertPair p (sortPairs rest)

/-- Join with Python's default item separator `", "`. -/
def joinComma (xs : List String) : String := String.intercalate ", " xs

/-- One `"key": value` member with Python's default `": "` separator. -/
def memberStr (kv : String × String) : String :=
  dumpString kv.1 ++ ": " ++ kv.2

mutual

/-- CPython's `json.dumps(v, sort_keys=True)` with default options. Objects
serialize their values first, then sort the members by key — the same
output as sorting first, since serialization is per-value. -/
def dumps : Json → String
  | Json.null => "null"
  | Json.bool true => "true"
  | Json.bool false => "false"
  | Json.int n => toString n
  | Json.str s => dumpString s
  | Json.arr xs => "[" ++ joinComma (dumpsList xs) ++ "]"
  | Json.obj kvs =>
      "\x7b" ++ joinComma ((sortPairs (dumpsMembers kvs)).map memberStr) ++ "\x7d"

/-- Serialize each element of a JSON array. -/
def dumpsList : List Json → List String
  | [] => []
  | x :: xs => dumps x :: dumpsList xs

/-- Serialize the value of each object member, keeping its key. -/
def dumpsMembers : List (String × Json) → List (String × String)
  | [] => []
  | (k, v) :: rest => (k, dumps v) :: dumpsMembers rest

end

/-- UTF-8 encoding (`.encode('utf-8')`) of the output of `dumps`: since
`ensure_ascii=True`
keeps every character in ASCII, UTF-8 is one byte per character. -/
def encodeAscii (s : String) : List Nat := s.data.map Char.toNat

/-! ## `hash_record` and `hash_record_mutate` -/

/-- Python's `dict.pop(k, None)`: remove the entry with key `k` (dicts have unique
keys, so filtering all occurrences coincides with removing the one entry). -/
def popKey (k : String) (d : PyDict) : PyDict :=
  d.filter (fun kv => !(kv.1 == k))

/-- In a pure value semantics `copy.deepcopy` is the identity. -/
def deepcopy (record : PyDict) : PyDict := record

/-- Digest of `hash_record_mutate(record)`: pop `last_modified` and `schema`, then
MD5 the UTF-8 encoding of `json.dumps(record, sort_keys=True)`. (The
Python function mutates its argument as a side effect; the digest it
returns is modelled here.) -/
def hash_record_mutate (record : PyDict) : String :=
  md5hex (encodeAscii (dumps (Json.obj (popKey "schema" (popKey "last_modified" record)))))

/-- Digest of `hash_record(record)`: the non-mutating variant — deep-copy, then
`hash_record_mutate` the copy. -/
def hash_record (record : PyDict) : String :=
  hash_record_mutate (deepcopy record)

/-- Modelled from the spec (§4.8, §8): `stripVolatile` removes the
`last_modified` and `schema` fields from a record. Stated by the spec as
the function against which `hash_record` is insensitive. -/
def stripVolatile (record : PyDict) : PyDict :=
  record.filter (fun kv => !(kv.1 == "last_modified") && !(kv.1 == "schema"))

/-! ## Python `str()` / `repr()` of decoded JSON values

Needed for the error messages `publish_records` builds with
`str.format` / `str.format_map`. `repr` of a string picks double quotes
when the string contains a single quote but no double quote; control
characters get the usual short escapes or `\xXX`. (Python additionally
escapes non-printable code points above ASCII, which do not occur in the
values this program formats.) -/

/-- One character inside a Python string repr quoted with `q`. -/
def reprChar (q c : Char) : String :=
  if c = '\\' then "\\\\"
  else if c = q then "\\" ++ String.mk [q]
  else if c = '\n' then "\\n"
  else if c = '\r' then "\\r"
  else if c = '\t' then "\\t"
  else if c.toNat < 32 ∨ c.toNat = 127 then "\\x" ++ byteHex c.toNat
  else String.mk [c]

/-- Python `repr` of a string. -/
def reprString (s : String) : String :=
  let q : Char := if s.data.contains '\'' ∧ ¬ s.data.contains '"' then '"' else '\''
  String.mk [q] ++ String.join (s.data.map (reprChar q)) ++ String.mk [q]

mutual

/-- Python `repr` of a decoded JSON value (dicts print in insertion
order, strings quoted). -/
def pyRepr : Json → String
  | Json.null => "None"
  | Json.bool true => "True"
  | Json.bool false => "False"
  | Json.int n => toString n
  | Json.str s => reprString s
  | Json.arr xs => "[" ++ joinComma (pyReprList xs) ++ "]"
  | Json.obj kvs => "\x7b" ++ joinComma (pyReprMembers kvs) ++ "\x7d"

/-- Python `repr` of each element of a list. -/
def pyReprList : List Json → List String
  | [] => []
  | x :: xs => pyRepr x :: pyReprList xs

/-- Member strings `repr(key): repr(value)` for each dict member. -/
def pyReprMembers : List (String × Json) → List String
  | [] => []
  | (k, v) :: rest => (reprString k ++ ": " ++ pyRepr v) :: pyReprMembers rest

end

/-- Python `str()` (what `str.format`'s `{}` applies): a string formats as
itself, every other value as its `repr`. -/
def pyStr : Json → String
  | Json.str s => s
  | v => pyRepr v

/-! ## `publish_records`: batch error aggregation

After the batch network call, `publish_records` walks the per-operation
sub-results: `result.get('code')` selects the error branch (412 conflict,
400 invalid, other generic); messages are collected and one `ValueError`
joining them is raised when any exist. -/

/-- Lookup `result.get('code')`, with a stored `None` treated like an absent key
(both fail the `is not None` test in the source). -/
def errorStatus (result : PyDict) : Option Json :=
  match result.lookup "code" with
  | some Json.null => none
  | some v => some v
  | none => none

/-- The 412 message
`"Record '{details[existing][id]}' already exists: {details[existing]}"`
built by `format_map(result)`; `none` models the `KeyError`/`TypeError`
Python raises when `result['details']['existing']['id']` is missing. -/
def fmt412 (result : PyDict) : Option String :=
  match result.lookup "details" with
  | some (Json.obj details) =>
    match details.lookup "existing" with
    | some ex =>
      match ex with
      | Json.obj e =>
        match e.lookup "id" with
        | some idv =>
            some ("Record '" ++ pyStr idv ++ "' already exists: " ++ pyStr ex)
        | none => none
      | _ => none
    | none => none
  | _ => none

/-- The error message one sub-result contributes: `some none` means no
error code (nothing reported), `some (some m)` the message `m`, and the
outer `none` the lookup crash of a malformed 412 result. -/
def resultErrorMsg (result : PyDict) : Option (Option String) :=
  match errorStatus result with
  | none => some none
  | some code =>
    if pyEqInt code 412 then (fmt412 result).map some
    else if pyEqInt code 400 then
      some (some ("Invalid record: " ++ pyStr (Json.obj result)))
    else some (some ("Error: " ++ pyStr (Json.obj result)))

/-- Test `result.get('code') is not None`: the sub-result carries an error code. -/
def hasErrorCode (result : PyDict) : Bool := (errorStatus result).isSome

/-- The `error_msgs` list accumulated over the sub-results, or `none` if a
malformed 412 result crashes the formatting. -/
def collectErrorMsgs : List PyDict → Option (List String)
  | [] => some []
  | r :: rest =>
    match resultErrorMsg r with
    | none => none
    | some none => collectErrorMsgs rest
    | some (some m) => (collectErrorMsgs rest).map (m :: ·)

/-- Outcome of `publish_records` after the batch call returned `results`:
return the results, raise `ValueError('\n'.join(error_msgs))`, or crash
on a malformed 412 result. -/
inductive PublishOutcome where
  | ok (results : List PyDict)
  | valueError (msg : String)
  | lookupCrash

/-- The error-inspection phase of `publish_records` applied to the
sub-results of one batch call. -/
def publish_records (results : List PyDict) : PublishOutcome :=
  match collectErrorMsgs results with
  | none => PublishOutcome.lookupCrash
  | some [] => PublishOutcome.ok results
  | some msgs => PublishOutcome.valueError (String.intercalate "\n" msgs)

/-! ## `produce`: queue production -/

/-- An item on the asyncio queue: a record, or the `done` completion
sentinel the producer enqueues after its input is exhausted. -/
inductive QItem where
  | record (r : PyDict) : QItem
  | sentinel : QItem

/-- The message of the `ValueError` raised on an invalid input item. -/
def invalidRecordMsg : String := "Invalid record (missing 'data' attribute)"

/-- The validity test of `produce`: `'data' in record or 'permission' in
record` (key membership, regardless of the stored value). -/
def validRecord (record : PyDict) : Bool :=
  (record.lookup "data").isSome || (record.lookup "permission").isSome

/-- Run of `produce(loop, records, queue)` over a finite input sequence: returns
the queue items enqueued, in order, and the raised `ValueError`'s message
if an invalid item aborted production. On normal exhaustion the `done`
sentinel is the final item; on abort nothing after the offending item is
enqueued (and no sentinel). -/
def produce : List PyDict → List QItem × Option String
  | [] => ([QItem.sentinel], none)
  | r :: rs =>
    if validRecord r then
      let (q, e) := produce rs
      (QItem.record r :: q, e)
    else ([], some invalidRecordMsg)

/-! ## `consume`: `record_unchanged` and batch filling -/

/-- Predicate `record_unchanged(record)` from `consume`:
`record['id'] in existing and existing.get(record['id']) == hash_record(record)`.
The `existing` dict is the loaded Hash Cache Store. (When the record has
no `'id'` key Python would raise `KeyError`; that case is modelled as
`false` and never arises in the theorems below.) -/
def record_unchanged (existing : PyDict) (record : PyDict) : Bool :=
  match record.lookup "id" with
  | some (Json.str rid) =>
    (existing.lookup rid).isSome &&
      (match existing.lookup rid with
       | some v => pyEqStr v (hash_record record)
       | none => false)
  | _ => false

/-- Payload `record['data']` of a queue item, as passed to `record_unchanged`.
(A missing or non-dict `'data'` would raise in Python; the theorems below
only use items carrying a `'data'` dict.) -/
def dataOf (record : PyDict) : PyDict :=
  match record.lookup "data" with
  | some (Json.obj d) => d
  | _ => []

/-- One pass of `consume`'s filling loop over the available queue items:
`while len(batch) < ideal_batch_size` pull an item; the `done` sentinel
stops filling; an item whose data `record_unchanged` judges unchanged is
marked done and skipped (its `logger.debug` call is a no-op sink here);
any other item is appended to the batch. Returns the batch and the items
left on the queue. `size` is `len(batch)` so far. -/
def fillBatchAux (existing : PyDict) (limit : Nat) :
    List QItem → Nat → List PyDict × List QItem
  | [], _ => ([], [])
  | item :: rest, size =>
    if limit ≤ size then ([], item :: rest)
    else
      match item with
      | QItem.sentinel => ([], rest)
      | QItem.record r =>
        if record_unchanged existing (dataOf r) then
          fillBatchAux existing limit rest size
        else
          let (b, q) := fillBatchAux existing limit rest (size + 1)
          (r :: b, q)

/-- Fill one batch starting from an empty one. `consume` then issues a
network batch call (`publish_records` on a worker) iff the batch is
non-empty. -/
def fillBatch (existing : PyDict) (limit : Nat) (queue : List QItem) :
    List PyDict × List QItem :=
  fillBatchAux existing limit queue 0

/-- Whether this consumer pass dispatches a network batch call. -/
def dispatchesBatch (existing : PyDict) (limit : Nat) (queue : List QItem) : Bool :=
  !(fillBatch existing limit queue).1.isEmpty

/-! ## Concrete example values -/

/-- A record (`record['data']` payload) with id `rid`. -/
def dataC : PyDict := [("id", Json.str "rid"), ("title", Json.str "a")]

/-- A Hash Cache Store as `fetch_existing` builds it (spec §3:
`recordId -> [remoteLastModified, contentHash]`), holding `dataC`'s id
with exactly its current content hash. -/
def existingC : PyDict :=
  [("rid", Json.arr [Json.int 1500000000, Json.str (hash_record dataC)])]

/-- The queue item `{"data": dataC}` the producer enqueues for `dataC`. -/
def itemC : PyDict := [("data", Json.obj dataC)]

/-- A valid producer input item. -/
def goodRec : PyDict := [("data", Json.obj [("title", Json.str "a")])]

/-- An input item with neither `data` nor `permission`: invalid. -/
def badRec : PyDict := [("other", Json.null)]

/-- A 412 sub-result carrying the conflicting existing record. -/
def r412ex : PyDict :=
  [("code", Json.int 412),
   ("details", Json.obj [("existing", Json.obj [("id", Json.str "abc")])])]

/-- A successful sub-result (no `code` key). -/
def rOkEx : PyDict := [("data", Json.obj [("id", Json.str "x")])]

/-! ## Theorems -/

/-- Stripping the two volatile fields first does not change what the two
`pop` calls inside `hash_record_mutate` leave behind. -/
theorem popKey_stripVolatile (r : PyDict) :
    popKey "schema" (popKey "last_modified" (stripVolatile r))
      = popKey "schema" (popKey "last_modified" r) := by
  induction r with
  | nil => rfl
  | cons kv rest ih =>
    by_cases h1 : kv.1 = "last_modified"
    · simp [popKey, stripVolatile, List.filter_cons, h1] at ih ⊢
      simpa [popKey, stripVolatile] using ih
    · by_cases h2 : kv.1 = "schema"
      · simp [popKey, stripVolatile, List.filter_cons, h1, h2] at ih ⊢
        simpa [popKey, stripVolatile] using ih
      · simp [popKey, stripVolatile, List.filter_cons, h1, h2] at ih ⊢
        simpa [popKey, stripVolatile] using ih

/-- C3: `hash_record(record)` equals `hash_record(stripVolatile(record))`
— the digest ignores the values and the presence of `last_modified` and
`schema`, is a deterministic function of what remains (it factors through
the stripped record), and the non-mutating variant is the mutating one
applied to a (deep) copy, which in a pure value semantics leaves the
argument untouched. -/
theorem hash_record_volatile_insensitive (record : PyDict) (v w : Json) :
    hash_record record = hash_record (stripVolatile record)
    ∧ hash_record (("last_modified", v) :: record) = hash_record record
    ∧ hash_record (("schema", w) :: record) = hash_record record
    ∧ hash_record record = hash_record_mutate (deepcopy record) := by
  refine ⟨?_, rfl, rfl, rfl⟩
  unfold hash_record hash_record_mutate deepcopy
  rw [popKey_stripVolatile]

/-- Values stored by `fetch_existing` (and in the persisted cache file)
are `[remoteLastModified, contentHash]` pairs; against any store whose
values are all JSON arrays, `record_unchanged` is constantly false: the
source compares the pair itself — not its hash component — with the hash
string `hash_record` returns. -/
theorem lookup_mem {β : Type} (k : String) (v : β) :
    ∀ l : List (String × β), l.lookup k = some v → (k, v) ∈ l := by
  intro l
  induction l with
  | nil => intro hl; simp [List.lookup] at hl
  | cons kv rest ih =>
    intro hl
    cases kv with
    | mk a b =>
      rw [List.lookup_cons] at hl
      by_cases he : k == a
      · simp only [he] at hl
        cases hl
        have : k = a := by simpa using he
        subst this
        exact List.mem_cons_self _ _
      · simp only [Bool.not_eq_true] at he
        rw [he] at hl
        exact List.mem_cons_of_mem _ (ih hl)

theorem record_unchanged_false_on_pair_store (existing record : PyDict)
    (h : ∀ kv ∈ existing, ∃ xs, kv.2 = Json.arr xs) :
    record_unchanged existing record = false := by
  unfold record_unchanged
  cases hid : record.lookup "id" with
  | none => rfl
  | some idv =>
    cases idv with
    | str rid =>
      cases hl : existing.lookup rid with
      | none => simp [hl]
      | some v =>
        obtain ⟨xs, hxs⟩ := h (rid, v) (lookup_mem rid v existing hl)
        simp only at hxs
        subst hxs
        simp [hl, pyEqStr]
    | null => rfl
    | bool b => rfl
    | int n => rfl
    | arr xs => rfl
    | obj kvs => rfl

/-- C1: counterexample on the code. `existingC` is a loaded Hash Cache
Store holding `dataC`'s id `rid` with exactly its current content hash
(in the `[remoteLastModified, contentHash]` shape `fetch_existing`
produces), and two queue items carry that unchanged record — yet
`record_unchanged` returns `false` (the source compares the stored
`[timestamp, hash]` pair with the hash string), so the consumer's filling
loop puts both items in the batch and dispatches a network batch call for
them instead of skipping both. -/
theorem consume_never_skips_unchanged_bug :
    existingC.lookup "rid"
        = some (Json.arr [Json.int 1500000000, Json.str (hash_record dataC)])
    ∧ dataOf itemC = dataC
    ∧ record_unchanged existingC (dataOf itemC) = false
    ∧ fillBatch existingC 9999
        [QItem.record itemC, QItem.record itemC, QItem.sentinel]
        = ([itemC, itemC], [])
    ∧ dispatchesBatch existingC 9999
        [QItem.record itemC, QItem.record itemC, QItem.sentinel] = true :=
  ⟨rfl, rfl, rfl, rfl, rfl⟩

/-- A sub-result contributes no error message exactly when it carries no
error code (provided its formatting does not crash). -/
theorem resultErrorMsg_join_none (r : PyDict) (hr : resultErrorMsg r ≠ none) :
    ((resultErrorMsg r).join = none ↔ hasErrorCode r = false) := by
  unfold resultErrorMsg hasErrorCode at *
  cases hs : errorStatus r with
  | none => simp
  | some code =>
    rw [hs] at hr
    by_cases h412 : pyEqInt code 412 = true
    · cases hf : fmt412 r with
      | none => simp [h412, hf] at hr
      | some m => simp [h412, hf]
    · simp only [Bool.not_eq_true] at h412
      by_cases h400 : pyEqInt code 400 = true
      · simp [h412, h400]
      · simp only [Bool.not_eq_true] at h400
        simp [h412, h400]

/-- `error_msgs` collects, in order, exactly the messages of the
sub-results that carry an error code. -/
theorem collectErrorMsgs_eq (results : List PyDict)
    (h : ∀ r ∈ results, resultErrorMsg r ≠ none) :
    collectErrorMsgs results
      = some (results.filterMap (fun r => (resultErrorMsg r).join)) := by
  induction results with
  | nil => rfl
  | cons r rest ih =>
    have hr := h r (List.mem_cons_self r rest)
    have ih' := ih (fun x hx => h x (List.mem_cons_of_mem r hx))
    cases hm : resultErrorMsg r with
    | none => exact absurd hm hr
    | some o =>
      cases o with
      | none => simpa [collectErrorMsgs, hm, List.filterMap_cons] using ih'
      | some m => simp [collectErrorMsgs, hm, List.filterMap_cons, ih']

/-- C2: for the sub-results of one batch call (none of which crashes the
412 formatting), `publish_records` raises exactly one aggregated
`ValueError` if and only if some sub-result carries an error code; the
raised message joins, in order, one message per erroneous sub-result (the
412/400/other case split being `resultErrorMsg`); sub-results without an
error code contribute nothing; and with no erroneous sub-result the
results are returned unchanged. -/
theorem publish_records_aggregates_errors (results : List PyDict)
    (h : ∀ r ∈ results, resultErrorMsg r ≠ none) :
    collectErrorMsgs results
        = some (results.filterMap (fun r => (resultErrorMsg r).join))
    ∧ ((∃ r ∈ results, hasErrorCode r = true) →
        publish_records results
          = PublishOutcome.valueError (String.intercalate "\n"
              (results.filterMap (fun r => (resultErrorMsg r).join))))
    ∧ ((∀ r ∈ results, hasErrorCode r = false) →
        publish_records results = PublishOutcome.ok results)
    ∧ (∀ r ∈ results, ((resultErrorMsg r).join = none ↔ hasErrorCode r = false)) := by
  have hcoll := collectErrorMsgs_eq results h
  refine ⟨hcoll, ?_, ?_, fun r hr => resultErrorMsg_join_none r (h r hr)⟩
  · rintro ⟨r, hrmem, hrcode⟩
    have hjoin : (resultErrorMsg r).join ≠ none := by
      intro hn
      rw [(resultErrorMsg_join_none r (h r hrmem)).mp hn] at hrcode
      exact Bool.false_ne_true hrcode
    obtain ⟨m, hm⟩ := Option.ne_none_iff_exists'.mp hjoin
    have hmem : m ∈ results.filterMap (fun r => (resultErrorMsg r).join) :=
      List.mem_filterMap.mpr ⟨r, hrmem, hm⟩
    unfold publish_records
    rw [hcoll]
    cases hfm : results.filterMap (fun r => (resultErrorMsg r).join) with
    | nil => rw [hfm] at hmem; simp at hmem
    | cons m0 ms => rfl
  · intro hall
    have hnil : results.filterMap (fun r => (resultErrorMsg r).join) = [] :=
      List.filterMap_eq_nil_iff.mpr
        (fun r hr => (resultErrorMsg_join_none r (h r hr)).mpr (hall r hr))
    unfold publish_records
    rw [hcoll, hnil]

/-- Witness for C2 at a batch with one 412 conflict and one success: one
`ValueError` is raised, describing only the 412 conflict (with the
conflicting record's identity), and only the 412 sub-result carries an
error code. -/
theorem publish_records_aggregates_errors_witness :
    publish_records [r412ex, rOkEx]
        = PublishOutcome.valueError
            "Record 'abc' already exists: \x7b'id': 'abc'\x7d"
    ∧ hasErrorCode r412ex = true ∧ hasErrorCode rOkEx = false := by
  have h := publish_records_aggregates_errors [r412ex, rOkEx] (by decide)
  refine ⟨?_, rfl, rfl⟩
  have hb := h.2.1 ⟨r412ex, List.mem_cons_self _ _, rfl⟩
  rw [hb]
  congr 1

/-- A fully valid input is enqueued in arrival order, then the sentinel. -/
theorem produce_all_valid (rs : List PyDict)
    (h : ∀ r ∈ rs, validRecord r = true) :
    produce rs = (rs.map QItem.record ++ [QItem.sentinel], none) := by
  induction rs with
  | nil => rfl
  | cons r rest ih =>
    have hr := h r (List.mem_cons_self r rest)
    have ih' := ih (fun x hx => h x (List.mem_cons_of_mem r hx))
    simp [produce, hr, ih']

/-- An invalid item aborts production: everything before it is enqueued
in order, nothing after it, and no sentinel. -/
theorem produce_aborts (pre post : List PyDict) (bad : PyDict)
    (hpre : ∀ r ∈ pre, validRecord r = true) (hbad : validRecord bad = false) :
    produce (pre ++ bad :: post)
      = (pre.map QItem.record, some invalidRecordMsg) := by
  induction pre with
  | nil => simp [produce, hbad]
  | cons r rest ih =>
    have hr := hpre r (List.mem_cons_self r rest)
    have ih' := ih (fun x hx => hpre x (List.mem_cons_of_mem r hx))
    simp [produce, hr, ih']

/-- C4: `produce` enqueues valid items in exactly arrival order followed
by one completion sentinel; an item with neither `data` nor `permission`
key raises the input-validation `ValueError` and aborts, enqueueing
nothing further (and no sentinel). -/
theorem produce_orders_and_aborts (rs pre post : List PyDict) (bad : PyDict) :
    ((∀ r ∈ rs, validRecord r = true) →
        produce rs = (rs.map QItem.record ++ [QItem.sentinel], none))
    ∧ (rs = pre ++ bad :: post → (∀ r ∈ pre, validRecord r = true) →
        validRecord bad = false →
        produce rs = (pre.map QItem.record, some invalidRecordMsg)) := by
  refine ⟨produce_all_valid rs, ?_⟩
  intro heq h1 h2
  rw [heq]
  exact produce_aborts pre post bad h1 h2

/-- Witness for C4: a valid item then an invalid one — the valid input
`[goodRec]` yields `[goodRec, sentinel]`, while `[goodRec, badRec]`
enqueues only `goodRec` and aborts with the validation error. -/
theorem produce_orders_and_aborts_witness :
    produce [goodRec] = ([QItem.record goodRec, QItem.sentinel], none)
    ∧ produce [goodRec, badRec]
        = ([QItem.record goodRec], some invalidRecordMsg) :=
  ⟨(produce_orders_and_aborts [goodRec] [] [] badRec).1 (by decide),
   (produce_orders_and_aborts [goodRec, badRec] [goodRec] [] badRec).2 rfl
     (by decide) (by decide)⟩

end ToKinto
